import Mathlib

/-
Verification of the streaming relay / consent-interrupt backend in
src/webapp-foundry-oauth/backend/server.py.

The embedding models the code at the level of decoded SSE records: the
decode loop of _stream_response (lines 169-196 of server.py) turns the raw
byte stream into a sequence of (sse event field, parsed JSON payload)
records; everything the claims speak about happens in the per-record
processing (lines 196-333), the terminal-event emission (lines 335-349),
the request-body construction (lines 125-136) and the two endpoints
chat (lines 364-400) and continue_after_consent (lines 403-458).

Python dynamic values are modelled by the Json type (Python None is
Json.null); Python exceptions (AttributeError / TypeError / KeyError on
ill-shaped payloads) are modelled with Except, mirroring that the
surrounding try/except of _stream_response converts any such exception
into a single terminal error event.
-/

namespace FoundryOauth

/-- A parsed JSON value, doubling as the Python runtime value it becomes
after json.loads (Python None is Json.null). -/
inductive Json where
  | null
  | bool (b : Bool)
  | num (n : Int)
  | str (s : String)
  | arr (elems : List Json)
  | obj (fields : List (String × Json))
deriving Repr

/-- Python truthiness of a json.loads result. -/
def Json.truthy : Json → Bool
  | .null => false
  | .bool b => b
  | .num n => n != 0
  | .str s => s != ""
  | .arr l => !l.isEmpty
  | .obj l => !l.isEmpty

/-- Python hashability: dict and list values cannot be dict keys. -/
def Json.hashable : Json → Bool
  | .arr _ => false
  | .obj _ => false
  | _ => true

/-- Python `a or b` on already-evaluated values: a if truthy, else b. -/
def pyOr (a b : Json) : Json := if a.truthy then a else b

/-- First binding of a key in an association list (Python dict keys are
unique, so first is the only one). -/
def lookupField : List (String × Json) → String → Option Json
  | [], _ => none
  | (k, v) :: rest, key => if k = key then some v else lookupField rest key

/-- Python dict.get(key, default) via attribute access: raises
AttributeError when the receiver is not a dict. -/
def pyGet (j : Json) (key : String) (dflt : Json) : Except String Json :=
  match j with
  | .obj fields => .ok ((lookupField fields key).getD dflt)
  | _ => .error "AttributeError"

/-- Python subscription j[key] with a string key: KeyError when the key is
missing from a dict, TypeError on a non-dict receiver. -/
def pyIndex (j : Json) (key : String) : Except String Json :=
  match j with
  | .obj fields =>
    match lookupField fields key with
    | some v => .ok v
    | none => .error "KeyError"
  | _ => .error "TypeError"

/-- Does the character list start with the given needle. -/
def charsStartWith : List Char → List Char → Bool
  | [], _ => true
  | _ :: _, [] => false
  | a :: as, b :: bs => a == b && charsStartWith as bs

/-- Does the character list contain the needle as a contiguous run. -/
def charsHaveRun (needle : List Char) : List Char → Bool
  | [] => charsStartWith needle []
  | b :: bs => charsStartWith needle (b :: bs) || charsHaveRun needle bs

/-- Python `key in j` for a string key: key membership on a dict,
substring test on a string, element equality on a list, TypeError
otherwise. -/
def pyContains (j : Json) (key : String) : Except String Bool :=
  match j with
  | .obj fields => .ok (fields.any (fun kv => kv.1 == key))
  | .str s => .ok (charsHaveRun key.toList s.toList)
  | .arr es => .ok (es.any (fun e => match e with | .str t => t == key | _ => false))
  | _ => .error "TypeError"

mutual

/-- Python str() of a json.loads value (repr-style for nested values). -/
def pyRepr : Json → String
  | .null => "None"
  | .bool true => "True"
  | .bool false => "False"
  | .num n => toString n
  | .str s => s
  | .arr es => "[" ++ pyReprList es ++ "]"
  | .obj fs => "\x7b" ++ pyReprFields fs ++ "\x7d"

/-- Comma-separated repr of list elements. -/
def pyReprList : List Json → String
  | [] => ""
  | [x] => pyReprInner x
  | x :: xs => pyReprInner x ++ ", " ++ pyReprList xs

/-- Comma-separated repr of dict entries. -/
def pyReprFields : List (String × Json) → String
  | [] => ""
  | [(k, v)] => "\x27" ++ k ++ "\x27: " ++ pyReprInner v
  | (k, v) :: xs => "\x27" ++ k ++ "\x27: " ++ pyReprInner v ++ ", " ++ pyReprFields xs

/-- repr() of a nested value: strings gain quotes. -/
def pyReprInner : Json → String
  | .str s => "\x27" ++ s ++ "\x27"
  | j => pyRepr j

end

/-- One decoded SSE record: the event field in force when the data line
arrived (none when no event line preceded it in the block), plus the
parsed JSON payload of the data line. -/
structure Record where
  sseEvent : Option String
  data : Json
deriving Repr

/-- The event type used for dispatch, mirroring
current_event_type or data.get("type", "") at line 196 of server.py
(Python or short-circuits on a truthy event field; the fallback get
raises AttributeError on a non-dict payload). -/
def eventTypeOf (r : Record) : Except String Json :=
  match r.sseEvent with
  | some s => if s == "" then pyGet r.data "type" (.str "") else .ok (.str s)
  | none => pyGet r.data "type" (.str "")

/-- Is the dispatch value equal to a given event-type string. -/
def isET (et : Json) (s : String) : Bool :=
  match et with
  | .str t => t == s
  | _ => false

/-- A client-facing StreamEvent as enumerated in the module docstring of
server.py (field payloads are the Python values placed in the dict that
is serialized at the _sse helper). -/
inductive StreamEvent where
  | textDelta (delta : Json)
  | toolStart (toolName : Json) (callId : Json)
  | toolEnd (toolName : Json) (callId : Json)
  | toolError (toolName : Json) (callId : Json) (error : Json)
  | oauthConsentRequired (consentLink : Json) (responseId : Json) (connectionName : Json)
  | done (responseId : Json)
  | error (message : Json)
deriving Repr

/-- The in-memory conversation store _conversations: conversationId to the
stored dict (always of shape previous_response_id to a value). -/
abbrev Store := List (String × Json)

/-- Store lookup, Python _conversations.get(conversationId). -/
def storeGet (s : Store) (k : String) : Option Json := lookupField s k

/-- Store assignment: _conversations[conversationId] = value (replaces an
existing binding, otherwise appends). -/
def storePut (s : Store) (k : String) (v : Json) : Store :=
  match s with
  | [] => [(k, v)]
  | (k', v') :: rest => if k' = k then (k, v) :: rest else (k', v') :: storePut rest k v

/-- Lookup in the turn-scoped active_tool_calls dict (keys are the Python
call-id values; only hashable keys ever get in). -/
def dictGet : List (Json × Json) → Json → Option Json
  | [], _ => none
  | (k, v) :: rest, key =>
    match k, key with
    | .null, .null => some v
    | .bool a, .bool b => if a == b then some v else dictGet rest key
    | .num a, .num b => if a == b then some v else dictGet rest key
    | .str a, .str b => if a == b then some v else dictGet rest key
    | _, _ => dictGet rest key

/-- Is the key bound in the dict (same key equality as dictGet). -/
def dictHas (d : List (Json × Json)) (key : Json) : Bool :=
  (dictGet d key).isSome

/-- Assignment active_tool_calls[call_id] = tool_name: replace the binding
if the key is present, else append. -/
def dictSet (d : List (Json × Json)) (key v : Json) : List (Json × Json) :=
  match d with
  | [] => [(key, v)]
  | (k, v') :: rest =>
    if dictHas [(k, v')] key then (key, v) :: rest
    else (k, v') :: dictSet rest key v

/-- The mutable turn-scoped state of _stream_response (lines 150-151):
response_id and active_tool_calls. -/
structure LoopState where
  responseId : Json
  activeToolCalls : List (Json × Json)
deriving Repr

/-- Initial turn state: response_id = None, active_tool_calls = empty. -/
def initState : LoopState := ⟨Json.null, []⟩

/-- Outcome of processing a single decoded record: either continue the
loop with updated state / store and at most one emitted event, or stop
the generator (the consent-interrupt return) after a store write and one
final event. -/
inductive StepOut where
  | next (st : LoopState) (store : Store) (ev : Option StreamEvent)
  | halt (store : Store) (ev : StreamEvent)
deriving Repr

/-- The per-record body of the decode loop of _stream_response
(server.py lines 196-333), for one decoded record. Except.error models a
Python exception escaping the loop (caught at line 346). -/
def processRecord (cid : String) (store : Store) (st : LoopState) (r : Record) :
    Except String StepOut := do
  let et ← eventTypeOf r
  if isET et "response.created" then
    let respObj ← pyGet r.data "response" (.obj [])
    let rid1 ← pyGet respObj "id" .null
    let rid ← (if rid1.truthy then pure rid1 else pyGet r.data "id" .null)
    pure (.next { st with responseId := rid } store none)
  else if isET et "response.output_text.delta" || isET et "response.text.delta" then
    let delta ← pyGet r.data "delta" (.str "")
    if delta.truthy then pure (.next st store (some (.textDelta delta)))
    else pure (.next st store none)
  else if isET et "response.content_part.delta" then
    let delta ← pyGet r.data "delta" (.obj [])
    let text : Json :=
      match delta with
      | .obj dfields => (lookupField dfields "text").getD (.str "")
      | _ => Json.str (pyRepr delta)
    if text.truthy then pure (.next st store (some (.textDelta text)))
    else pure (.next st store none)
  else if isET et "response.output_item.added" then
    let item ← pyGet r.data "item" (.obj [])
    let itemType ← pyGet item "type" .null
    if isET itemType "function_call" then
      let cid1 ← pyGet item "call_id" .null
      let callId ← (if cid1.truthy then pure cid1 else pyGet item "id" (.str ""))
      let toolName ← pyGet item "name" (.str "unknown_tool")
      if callId.hashable then
        pure (.next { st with activeToolCalls := dictSet st.activeToolCalls callId toolName }
          store (some (.toolStart toolName callId)))
      else .error "TypeError"
    else pure (.next st store none)
  else if isET et "response.output_item.done" then
    let item ← pyGet r.data "item" (.obj [])
    let itemType ← pyGet item "type" .null
    if isET itemType "function_call" then
      let cid1 ← pyGet item "call_id" .null
      let callId ← (if cid1.truthy then pure cid1 else pyGet item "id" (.str ""))
      let fallbackName ← pyGet item "name" (.str "unknown_tool")
      if callId.hashable then
        let toolName := (dictGet st.activeToolCalls callId).getD fallbackName
        pure (.next st store (some (.toolEnd toolName callId)))
      else .error "TypeError"
    else pure (.next st store none)
  else if isET et "oauth_consent_request" then
    let consentLink ← pyGet r.data "consent_link" (.str "")
    let connectionName ← pyGet r.data "connection_name" (.str "")
    pure (.halt (storePut store cid (.obj [("previous_response_id", st.responseId)]))
      (.oauthConsentRequired consentLink st.responseId connectionName))
  else do
    let embedded ← pyContains r.data "oauth_consent_request"
    if embedded then
      let consentObj ← pyIndex r.data "oauth_consent_request"
      let consentLink ← pyGet consentObj "consent_link" (.str "")
      let connectionName ← pyGet consentObj "connection_name" (.str "")
      pure (.halt (storePut store cid (.obj [("previous_response_id", st.responseId)]))
        (.oauthConsentRequired consentLink st.responseId connectionName))
    else if isET et "response.completed" then
      let respObj ← pyGet r.data "response" (.obj [])
      let rid ← pyGet respObj "id" st.responseId
      pure (.next { st with responseId := rid }
        (storePut store cid (.obj [("previous_response_id", rid)])) none)
    else if isET et "error" then
      let err ← pyGet r.data "error" r.data
      let msg : Json :=
        match err with
        | .obj efields => (lookupField efields "message").getD (.str (pyRepr err))
        | _ => Json.str (pyRepr err)
      pure (.next st store (some (.error msg)))
    else
      pure (.next st store none)

/-- How the decode loop of one turn came to an end. -/
inductive LoopResult where
  | finished (responseId : Json)
  | halted
  | errored (msg : String)
deriving Repr

/-- Everything a finished decode loop leaves behind. -/
structure RunOut where
  store : Store
  events : List StreamEvent
  result : LoopResult
deriving Repr

/-- The decode loop of _stream_response over a list of decoded records:
threads the store and turn state, collects emitted events in order, and
stops early on the consent-interrupt return or on a Python exception. -/
def runLoop (cid : String) (store : Store) (st : LoopState) :
    List Record → RunOut
  | [] => ⟨store, [], .finished st.responseId⟩
  | r :: rest =>
    match processRecord cid store st r with
    | .error e => ⟨store, [], .errored e⟩
    | .ok (.halt store' ev) => ⟨store', [ev], .halted⟩
    | .ok (.next st' store' ev) =>
      let out := runLoop cid store' st' rest
      ⟨out.store, ev.toList ++ out.events, out.result⟩

/-- The whole streamed body of one successfully-connected turn: run the
decode loop from the initial state, then append the terminal event the
code emits (done with response_id or "" on normal completion at line 335;
the Unexpected-error event at line 346 when an exception escaped; nothing
after the consent-interrupt return). Result: final store and the full
event sequence sent to the client. -/
def streamBody (cid : String) (store : Store) (records : List Record) :
    Store × List StreamEvent :=
  let out := runLoop cid store initState records
  match out.result with
  | .finished rid => (out.store, out.events ++ [.done (pyOr rid (.str ""))])
  | .halted => (out.store, out.events)
  | .errored e => (out.store, out.events ++ [.error (.str ("Unexpected error: " ++ e))])

/-- What the upstream connection produced: either a 2xx response whose SSE
body decoded to the given records, or a non-2xx status (raise_for_status
at line 165 raises httpx.HTTPStatusError) with the response body text. -/
inductive UpstreamResult where
  | ok (records : List Record)
  | httpError (status : Nat) (bodyText : String)

/-- Python string slice s[:n]: the first n characters. -/
def strTake (s : String) (n : Nat) : String := String.mk (s.data.take n)

/-- The full _stream_response generator after the upstream call: on a
non-2xx status the HTTPStatusError handler (lines 337-344) emits one
error event built from the status and the first 300 characters of the
body, leaving the store untouched and never entering the decode loop. -/
def streamResponse (cid : String) (store : Store) (up : UpstreamResult) :
    Store × List StreamEvent :=
  match up with
  | .ok records => streamBody cid store records
  | .httpError status bodyText =>
    (store, [.error (.str ("Foundry API HTTP " ++ toString status ++ ": "
      ++ strTake bodyText 300))])

/-- The upstream request body built at lines 125-136 of server.py: always
model and stream; previous_response_id only when the passed value is
truthy; input only when a truthy (non-empty) user message was passed. -/
def buildBody (agentId : String) (userMessage : Option String)
    (previousResponseId : Json) : List (String × Json) :=
  let body := [("model", Json.str agentId), ("stream", Json.bool true)]
  let body := if previousResponseId.truthy
    then body ++ [("previous_response_id", previousResponseId)] else body
  let body :=
    match userMessage with
    | some m =>
      if m ≠ "" then
        body ++ [("input", Json.arr [Json.obj [("role", Json.str "user"), ("content", Json.str m)]])]
      else body
    | none => body
  body

/-- Request payload of POST /api/chat. -/
structure ChatRequest where
  conversationId : String
  userMessage : String

/-- Request payload of POST /api/continue. -/
structure ContinueRequest where
  conversationId : String

/-- What an endpoint handler decides before any streaming happens: either
an HTTPException with a status and detail (no stream opened, no upstream
call), or a stream opened via _stream_response with the given
user_message and previous_response_id arguments. -/
inductive TurnStart where
  | httpError (status : Nat) (detail : String)
  | streamOpened (userMessage : Option String) (previousResponseId : Json)
      (conversationId : String)
deriving Repr

/-- The chat endpoint (server.py lines 364-400): reject on missing
configuration, else look up the stored continuation state (default empty
dict) and open the stream with the request's user message. -/
def chat (projectEndpoint agentId : String) (store : Store) (req : ChatRequest) :
    Except String TurnStart := do
  if projectEndpoint == "" || agentId == "" then
    pure (.httpError 500
      "PROJECT_ENDPOINT and AGENT_ID environment variables must be set.")
  else
    let state := (storeGet store req.conversationId).getD (.obj [])
    let previousResponseId ← pyGet state "previous_response_id" .null
    pure (.streamOpened (some req.userMessage) previousResponseId req.conversationId)

/-- The continue endpoint continue_after_consent (server.py lines
403-458): reject on missing configuration; 404 when no stored state is
found (or the stored state is falsy); 400 when the stored state has no
truthy previous_response_id; otherwise open the stream with no new user
message and the stored continuation token. -/
def continueAfterConsent (projectEndpoint agentId : String) (store : Store)
    (req : ContinueRequest) : Except String TurnStart := do
  if projectEndpoint == "" || agentId == "" then
    pure (.httpError 500
      "PROJECT_ENDPOINT and AGENT_ID environment variables must be set.")
  else
    match storeGet store req.conversationId with
    | none =>
      pure (.httpError 404
        ("No conversation found for conversationId=" ++ req.conversationId))
    | some state =>
      if !state.truthy then
        pure (.httpError 404
          ("No conversation found for conversationId=" ++ req.conversationId))
      else do
        let previousResponseId ← pyGet state "previous_response_id" .null
        if !previousResponseId.truthy then
          pure (.httpError 400 "No previous_response_id stored; cannot continue.")
        else
          pure (.streamOpened none previousResponseId req.conversationId)

/-
Vocabulary used to state the claims: record classifiers and the shapes of
records the detector and the translator branches of processRecord act on.
All of it is read off the branch structure of server.py lines 196-333.
-/

/-- The event types claimed by the translator branches that precede the
embedded-key consent check in the elif chain (lines 199-259). -/
def isTranslatorType (et : Json) : Bool :=
  isET et "response.created" || isET et "response.output_text.delta" ||
  isET et "response.text.delta" || isET et "response.content_part.delta" ||
  isET et "response.output_item.added" || isET et "response.output_item.done"

/-- Is the value a Python dict. -/
def Json.isObjB : Json → Bool
  | .obj _ => true
  | _ => false

/-- Does the payload carry the embedded consent signal in the shape the
code can act on: a dict with an oauth_consent_request key whose value is
itself a dict. -/
def embeddedKeyObj : Json → Bool
  | .obj fields =>
    match lookupField fields "oauth_consent_request" with
    | some (.obj _) => true
    | _ => false
  | _ => false

/-- The consent-interrupt detector fires on this record and completes the
interrupt (store write, event, return): either the explicit
oauth_consent_request event type with a dict payload, or a record whose
event type matches none of the earlier translator branches and whose dict
payload embeds an oauth_consent_request dict one level down. -/
def consentHandled (r : Record) : Bool :=
  match eventTypeOf r with
  | .error _ => false
  | .ok et =>
    if isET et "oauth_consent_request" then r.data.isObjB
    else if isTranslatorType et then false
    else embeddedKeyObj r.data

/-- The consent_link and connection_name values the detector extracts from
a record it fires on (lines 269-270 and 296-297 of server.py). -/
def consentFields (r : Record) : Json × Json :=
  match eventTypeOf r with
  | .ok et =>
    if isET et "oauth_consent_request" then
      match r.data with
      | .obj fields =>
        ((lookupField fields "consent_link").getD (.str ""),
         (lookupField fields "connection_name").getD (.str ""))
      | _ => (.str "", .str "")
    else
      match r.data with
      | .obj fields =>
        match lookupField fields "oauth_consent_request" with
        | some (.obj cf) =>
          ((lookupField cf "consent_link").getD (.str ""),
           (lookupField cf "connection_name").getD (.str ""))
        | _ => (.str "", .str "")
      | _ => (.str "", .str "")
  | .error _ => (.str "", .str "")

/-- Is the record dispatched as a response.completed event. -/
def isCompletedType (r : Record) : Bool :=
  match eventTypeOf r with
  | .ok et => isET et "response.completed"
  | .error _ => false

/-- Is the record dispatched as a response.created event. -/
def isCreatedType (r : Record) : Bool :=
  match eventTypeOf r with
  | .ok et => isET et "response.created"
  | .error _ => false

/-- Is the record dispatched as an upstream error event. -/
def isErrorType (r : Record) : Bool :=
  match eventTypeOf r with
  | .ok et => isET et "error"
  | .error _ => false

/-- Is the client event a done event. -/
def isDoneEv : StreamEvent → Bool
  | .done _ => true
  | _ => false

/-- Is the client event an oauth_consent_required event. -/
def isConsentEv : StreamEvent → Bool
  | .oauthConsentRequired _ _ _ => true
  | _ => false

/-- Is the client event one of the three turn-terminating kinds named by
the spec: done, error or oauth_consent_required. -/
def isTerminalEv : StreamEvent → Bool
  | .done _ => true
  | .error _ => true
  | .oauthConsentRequired _ _ _ => true
  | _ => false

/-- Processing this record never raises, never interrupts: from any state
it continues the loop. Such records are the well-formed non-consent
records a stream is made of. -/
def StepsOn (cid : String) (r : Record) : Prop :=
  ∀ store st, ∃ st' store' ev,
    processRecord cid store st r = .ok (.next st' store' ev)

/-- A response.completed record in the shape the claims speak about: a
dict payload dispatched as response.completed, with no embedded consent
key, whose response sub-dict carries the response id R. -/
def cleanCompleted (r : Record) (R : String) : Prop :=
  ∃ fields rf, r.data = .obj fields ∧
    eventTypeOf r = .ok (.str "response.completed") ∧
    lookupField fields "oauth_consent_request" = none ∧
    lookupField fields "response" = some (.obj rf) ∧
    lookupField rf "id" = some (.str R)

/-- A tool-call-started record: response.output_item.added whose item is a
function_call with the given call id and tool name. -/
def addedRec (callId toolName : String) : Record :=
  ⟨some "response.output_item.added",
   .obj [("item", .obj [("type", .str "function_call"),
     ("call_id", .str callId), ("name", .str toolName)])]⟩

/-- A tool-call-finished record: response.output_item.done whose item is a
function_call with the given call id and item-level name field. -/
def doneItemRec (callId itemName : String) : Record :=
  ⟨some "response.output_item.done",
   .obj [("item", .obj [("type", .str "function_call"),
     ("call_id", .str callId), ("name", .str itemName)])]⟩

/-- A response id value can have been extracted from this record: it is
the id found under response.id or under a top-level id key of the
record's dict payload (the two places lines 199-203 and 316-318 read). -/
def ridFromRecord (rid : Json) (r : Record) : Prop :=
  ∃ fields, r.data = .obj fields ∧
    ((∃ rf, lookupField fields "response" = some (.obj rf) ∧
        lookupField rf "id" = some rid) ∨
     lookupField fields "id" = some rid)

/-- The response id is accounted for by the record list: it is either the
initial None or was extracted from one of the records. -/
def ridOk (all : List Record) (rid : Json) : Prop :=
  rid = Json.null ∨ ∃ r ∈ all, ridFromRecord rid r

/-- Every binding of the store is either inherited from the base store or
is a previous_response_id dict whose value is accounted for by the
records of the turn. -/
def storeOk (base : Store) (all : List Record) (s : Store) : Prop :=
  ∀ c v, storeGet s c = some v →
    storeGet base c = some v ∨
    ∃ rid, v = .obj [("previous_response_id", rid)] ∧ ridOk all rid

/-
General lemmas about the embedding, shared by the claim theorems.
-/

theorem exc_bind_ok {α β : Type} (a : α) (f : α → Except String β) :
    (Except.ok a >>= f : Except String β) = f a := rfl

theorem exc_bind_err {α β : Type} (e : String) (f : α → Except String β) :
    (Except.error e >>= f : Except String β) = Except.error e := rfl

theorem isET_eq {et : Json} {s : String} (h : isET et s = true) : et = .str s := by
  cases et <;> simp [isET] at h ⊢; exact h

theorem isObjB_exists {j : Json} (h : j.isObjB = true) : ∃ fields, j = .obj fields := by
  cases j <;> simp [Json.isObjB] at h ⊢

theorem embeddedKeyObj_exists {j : Json} (h : embeddedKeyObj j = true) :
    ∃ fields cf, j = .obj fields ∧
      lookupField fields "oauth_consent_request" = some (.obj cf) := by
  cases j <;> try simp [embeddedKeyObj] at h
  rename_i fields
  refine ⟨fields, ?_⟩
  cases hlk : lookupField fields "oauth_consent_request" with
  | none => rw [hlk] at h; simp at h
  | some v =>
    rw [hlk] at h
    cases v <;> try simp at h
    rename_i cf
    exact ⟨cf, rfl, rfl⟩

theorem lookupField_any {fields : List (String × Json)} {k : String} {v : Json}
    (h : lookupField fields k = some v) :
    fields.any (fun kv => kv.1 == k) = true := by
  induction fields with
  | nil => simp [lookupField] at h
  | cons hd tl ih =>
    obtain ⟨k', v'⟩ := hd
    by_cases hk : k' = k
    · simp [List.any, hk]
    · simp only [lookupField, if_neg hk] at h
      simp [List.any, ih h]

theorem lookupField_none_any {fields : List (String × Json)} {k : String}
    (h : lookupField fields k = none) :
    fields.any (fun kv => kv.1 == k) = false := by
  induction fields with
  | nil => simp [List.any]
  | cons hd tl ih =>
    obtain ⟨k', v'⟩ := hd
    by_cases hk : k' = k
    · simp [lookupField, hk] at h
    · simp only [lookupField, if_neg hk] at h
      simp [List.any, ih h, hk]

theorem notTranslator_components {et : Json} (h : isTranslatorType et = false) :
    isET et "response.created" = false ∧ isET et "response.output_text.delta" = false ∧
    isET et "response.text.delta" = false ∧ isET et "response.content_part.delta" = false ∧
    isET et "response.output_item.added" = false ∧ isET et "response.output_item.done" = false := by
  unfold isTranslatorType at h
  simp only [Bool.or_eq_false_iff] at h
  exact ⟨h.1.1.1.1.1, h.1.1.1.1.2, h.1.1.1.2, h.1.1.2, h.1.2, h.2⟩

theorem storeGet_storePut_self (s : Store) (k : String) (v : Json) :
    storeGet (storePut s k v) k = some v := by
  induction s with
  | nil => simp [storePut, storeGet, lookupField]
  | cons hd tl ih =>
    obtain ⟨k', v'⟩ := hd
    by_cases hk : k' = k
    · simp [storePut, hk, storeGet, lookupField]
    · simp only [storePut, if_neg hk]
      simpa [storeGet, lookupField, hk] using ih

theorem storeGet_storePut_ne (s : Store) (k : String) (v : Json) (c : String)
    (h : c ≠ k) : storeGet (storePut s k v) c = storeGet s c := by
  induction s with
  | nil => simp [storePut, storeGet, lookupField, Ne.symm h]
  | cons hd tl ih =>
    obtain ⟨k', v'⟩ := hd
    by_cases hk : k' = k
    · subst hk
      simp [storePut, storeGet, lookupField, Ne.symm h]
    · simp only [storePut, if_neg hk]
      by_cases hc : k' = c
      · simp [storeGet, lookupField, hc]
      · simpa [storeGet, lookupField, hc] using ih

theorem processRecord_consent (cid : String) (store : Store) (st : LoopState) (r : Record)
    (hd : consentHandled r = true) :
    processRecord cid store st r =
      .ok (.halt (storePut store cid (.obj [("previous_response_id", st.responseId)]))
        (.oauthConsentRequired (consentFields r).1 st.responseId (consentFields r).2)) := by
  unfold consentHandled at hd
  split at hd
  · simp at hd
  next et het =>
    by_cases hx : isET et "oauth_consent_request" = true
    · rw [if_pos hx] at hd
      obtain ⟨fields, hdata⟩ := isObjB_exists hd
      have hets := isET_eq hx
      subst hets
      unfold processRecord
      rw [het]
      simp only [exc_bind_ok]
      simp only [consentFields, het, hdata, isET, String.reduceBEq, if_true, if_false]
      rfl
    · rw [if_neg hx] at hd
      cases hT : isTranslatorType et with
      | true => rw [hT] at hd; simp at hd
      | false =>
        rw [hT, if_neg (by simp)] at hd
        obtain ⟨fields, cf, hdata, hlk⟩ := embeddedKeyObj_exists hd
        obtain ⟨h1, h2, h3, h4, h5, h6⟩ := notTranslator_components hT
        have hx' : isET et "oauth_consent_request" = false := by
          cases h : isET et "oauth_consent_request"
          · rfl
          · exact absurd h hx
        have hany := lookupField_any hlk
        unfold processRecord
        rw [het]
        simp only [exc_bind_ok, h1, h2, h3, h4, h5, h6, hx', Bool.or_self,
          Bool.false_eq_true, if_false]
        rw [hdata]
        simp only [pyContains, exc_bind_ok, hany, if_true, pyIndex, hlk]
        simp only [consentFields, het, hx', hdata, hlk, Bool.false_eq_true, if_false]
        simp only [pyGet, exc_bind_ok]
        rfl

theorem runLoop_consent_head (cid : String) (store : Store) (st : LoopState)
    (r : Record) (rest : List Record) (hd : consentHandled r = true) :
    runLoop cid store st (r :: rest) =
      ⟨storePut store cid (.obj [("previous_response_id", st.responseId)]),
       [.oauthConsentRequired (consentFields r).1 st.responseId (consentFields r).2],
       .halted⟩ := by
  simp only [runLoop, processRecord_consent cid store st r hd]

theorem exc_pure {α : Type} (a : α) : (pure a : Except String α) = Except.ok a := rfl

theorem pyGet_ok_inv {j : Json} {k : String} {d v : Json} (h : pyGet j k d = .ok v) :
    ∃ fields, j = .obj fields ∧ (lookupField fields k).getD d = v := by
  cases j <;> simp [pyGet] at h ⊢
  exact h

theorem pyIndex_ok_inv {j : Json} {k : String} {v : Json} (h : pyIndex j k = .ok v) :
    ∃ fields, j = .obj fields ∧ lookupField fields k = some v := by
  cases j <;> simp [pyIndex] at h ⊢
  rename_i fields
  cases hlk : lookupField fields k with
  | none => rw [hlk] at h; exact Except.noConfusion h
  | some w =>
    rw [hlk] at h
    simp at h
    rw [h]

theorem getD_some_of_truthy {o : Option Json} {v : Json}
    (hv : o.getD Json.null = v) (ht : v.truthy = true) : o = some v := by
  cases o with
  | none => simp at hv; rw [← hv] at ht; simp [Json.truthy] at ht
  | some w => simp at hv; rw [hv]

theorem processRecord_inv (cid : String) (store : Store) (st : LoopState) (r : Record)
    (out : StepOut) (h : processRecord cid store st r = .ok out) :
    (∃ store2 ev2, out = .halt store2 ev2 ∧ consentHandled r = true) ∨
    (∃ st2 store2 ev2, out = .next st2 store2 ev2 ∧
      (∀ e, ev2 = some e → isDoneEv e = false ∧ isConsentEv e = false) ∧
      (store2 = store ∨ (isCompletedType r = true ∧
        store2 = storePut store cid (.obj [("previous_response_id", st2.responseId)]) ∧
        ev2 = none)) ∧
      (st2.responseId = st.responseId ∨ st2.responseId = Json.null ∨
        ridFromRecord st2.responseId r) ∧
      (isCompletedType r = false → isCreatedType r = false →
        st2.responseId = st.responseId)) := by
  unfold processRecord at h
  cases het : eventTypeOf r with
  | error e => rw [het, exc_bind_err] at h; exact Except.noConfusion h
  | ok et =>
    rw [het, exc_bind_ok] at h
    by_cases c1 : isET et "response.created" = true
    · -- response.created branch
      rw [if_pos c1] at h
      cases hg1 : pyGet r.data "response" (.obj []) with
      | error e => rw [hg1, exc_bind_err] at h; exact Except.noConfusion h
      | ok respObj =>
        rw [hg1, exc_bind_ok] at h
        cases hg2 : pyGet respObj "id" Json.null with
        | error e => rw [hg2, exc_bind_err] at h; exact Except.noConfusion h
        | ok rid1 =>
          rw [hg2, exc_bind_ok] at h
          obtain ⟨fields, hdata, hv1⟩ := pyGet_ok_inv hg1
          obtain ⟨rf, hrespObj, hv2⟩ := pyGet_ok_inv hg2
          have hct : isCreatedType r = true := by simp [isCreatedType, het, c1]
          by_cases ht : rid1.truthy = true
          · rw [if_pos ht, exc_pure, exc_bind_ok, exc_pure] at h
            rcases Except.ok.inj h with rfl
            refine Or.inr ⟨_, _, _, rfl, ?_, Or.inl rfl, ?_, ?_⟩
            · exact fun e he => Option.noConfusion he
            · refine Or.inr (Or.inr ⟨fields, hdata, Or.inl ⟨rf, ?_, getD_some_of_truthy hv2 ht⟩⟩)
              cases hresp : lookupField fields "response" with
              | none =>
                rw [hresp] at hv1
                simp at hv1
                rw [← hv1] at hrespObj
                rcases Json.obj.inj hrespObj.symm with rfl
                have : rid1 = Json.null := by
                  rw [← hv2]; simp [lookupField]
                rw [this] at ht
                simp [Json.truthy] at ht
              | some w =>
                rw [hresp] at hv1
                simp at hv1
                rw [hv1, hrespObj]
            · intro _ hcr; rw [hct] at hcr; exact Bool.noConfusion hcr
          · rw [if_neg ht] at h
            cases hg3 : pyGet r.data "id" Json.null with
            | error e => rw [hg3, exc_bind_err] at h; exact Except.noConfusion h
            | ok rid2 =>
              rw [hg3, exc_bind_ok, exc_pure] at h
              rcases Except.ok.inj h with rfl
              obtain ⟨fields2, hdata2, hv3⟩ := pyGet_ok_inv hg3
              rw [hdata] at hdata2
              rcases Json.obj.inj hdata2 with rfl
              refine Or.inr ⟨_, _, _, rfl, ?_, Or.inl rfl, ?_, ?_⟩
              · exact fun e he => Option.noConfusion he
              · cases hid : lookupField fields "id" with
                | none =>
                  rw [hid] at hv3; simp at hv3
                  exact Or.inr (Or.inl hv3.symm)
                | some w =>
                  rw [hid] at hv3; simp at hv3
                  rw [hv3] at hid
                  exact Or.inr (Or.inr ⟨fields, hdata, Or.inr hid⟩)
              · intro _ hcr; rw [hct] at hcr; exact Bool.noConfusion hcr
    · rw [if_neg c1] at h
      have c1f : isET et "response.created" = false := by
        cases hb : isET et "response.created"
        · rfl
        · exact absurd hb c1
      by_cases c2 : (isET et "response.output_text.delta" || isET et "response.text.delta") = true
      · -- text delta branch
        rw [if_pos c2] at h
        cases hg1 : pyGet r.data "delta" (.str "") with
        | error e => rw [hg1, exc_bind_err] at h; exact Except.noConfusion h
        | ok delta =>
          rw [hg1, exc_bind_ok] at h
          by_cases ht : delta.truthy = true
          · rw [if_pos ht, exc_pure] at h
            rcases Except.ok.inj h with rfl
            refine Or.inr ⟨_, _, _, rfl, ?_, Or.inl rfl, Or.inl rfl, fun _ _ => rfl⟩
            rintro e he
            rcases Option.some.inj he with rfl
            exact ⟨rfl, rfl⟩
          · rw [if_neg ht, exc_pure] at h
            rcases Except.ok.inj h with rfl
            exact Or.inr ⟨_, _, _, rfl, fun e he => Option.noConfusion he,
              Or.inl rfl, Or.inl rfl, fun _ _ => rfl⟩
      · rw [if_neg c2] at h
        by_cases c3 : isET et "response.content_part.delta" = true
        · -- content_part delta branch
          rw [if_pos c3] at h
          cases hg1 : pyGet r.data "delta" (.obj []) with
          | error e => rw [hg1, exc_bind_err] at h; exact Except.noConfusion h
          | ok delta =>
            rw [hg1, exc_bind_ok] at h
            by_cases ht : (match delta with
              | Json.obj dfields => (lookupField dfields "text").getD (Json.str "")
              | x => Json.str (pyRepr delta)).truthy = true
            · rw [if_pos ht, exc_pure] at h
              rcases Except.ok.inj h with rfl
              refine Or.inr ⟨_, _, _, rfl, ?_, Or.inl rfl, Or.inl rfl, fun _ _ => rfl⟩
              rintro e he
              rcases Option.some.inj he with rfl
              exact ⟨rfl, rfl⟩
            · rw [if_neg ht, exc_pure] at h
              rcases Except.ok.inj h with rfl
              exact Or.inr ⟨_, _, _, rfl, fun e he => Option.noConfusion he,
                Or.inl rfl, Or.inl rfl, fun _ _ => rfl⟩
        · rw [if_neg c3] at h
          by_cases c4 : isET et "response.output_item.added" = true
          · -- tool start branch
            rw [if_pos c4] at h
            cases hg1 : pyGet r.data "item" (.obj []) with
            | error e => rw [hg1, exc_bind_err] at h; exact Except.noConfusion h
            | ok item =>
              rw [hg1, exc_bind_ok] at h
              cases hg2 : pyGet item "type" Json.null with
              | error e => rw [hg2, exc_bind_err] at h; exact Except.noConfusion h
              | ok itemType =>
                rw [hg2, exc_bind_ok] at h
                by_cases hfc : isET itemType "function_call" = true
                · rw [if_pos hfc] at h
                  cases hg3 : pyGet item "call_id" Json.null with
                  | error e => rw [hg3, exc_bind_err] at h; exact Except.noConfusion h
                  | ok cid1 =>
                    rw [hg3, exc_bind_ok] at h
                    by_cases ht : cid1.truthy = true
                    · rw [if_pos ht, exc_pure, exc_bind_ok] at h
                      cases hg4 : pyGet item "name" (.str "unknown_tool") with
                      | error e => rw [hg4, exc_bind_err] at h; exact Except.noConfusion h
                      | ok toolName =>
                        rw [hg4, exc_bind_ok] at h
                        by_cases hh : cid1.hashable = true
                        · rw [if_pos hh, exc_pure] at h
                          rcases Except.ok.inj h with rfl
                          refine Or.inr ⟨_, _, _, rfl, ?_, Or.inl rfl, Or.inl rfl, fun _ _ => rfl⟩
                          rintro e he
                          rcases Option.some.inj he with rfl
                          exact ⟨rfl, rfl⟩
                        · rw [if_neg hh] at h; exact Except.noConfusion h
                    · rw [if_neg ht] at h
                      cases hg3b : pyGet item "id" (.str "") with
                      | error e => rw [hg3b, exc_bind_err] at h; exact Except.noConfusion h
                      | ok cid2 =>
                        rw [hg3b, exc_bind_ok] at h
                        cases hg4 : pyGet item "name" (.str "unknown_tool") with
                        | error e => rw [hg4, exc_bind_err] at h; exact Except.noConfusion h
                        | ok toolName =>
                          rw [hg4, exc_bind_ok] at h
                          by_cases hh : cid2.hashable = true
                          · rw [if_pos hh, exc_pure] at h
                            rcases Except.ok.inj h with rfl
                            refine Or.inr ⟨_, _, _, rfl, ?_, Or.inl rfl, Or.inl rfl, fun _ _ => rfl⟩
                            rintro e he
                            rcases Option.some.inj he with rfl
                            exact ⟨rfl, rfl⟩
                          · rw [if_neg hh] at h; exact Except.noConfusion h
                · rw [if_neg hfc, exc_pure] at h
                  rcases Except.ok.inj h with rfl
                  exact Or.inr ⟨_, _, _, rfl, fun e he => Option.noConfusion he,
                    Or.inl rfl, Or.inl rfl, fun _ _ => rfl⟩
          · rw [if_neg c4] at h
            by_cases c5 : isET et "response.output_item.done" = true
            · -- tool end branch
              rw [if_pos c5] at h
              cases hg1 : pyGet r.data "item" (.obj []) with
              | error e => rw [hg1, exc_bind_err] at h; exact Except.noConfusion h
              | ok item =>
                rw [hg1, exc_bind_ok] at h
                cases hg2 : pyGet item "type" Json.null with
                | error e => rw [hg2, exc_bind_err] at h; exact Except.noConfusion h
                | ok itemType =>
                  rw [hg2, exc_bind_ok] at h
                  by_cases hfc : isET itemType "function_call" = true
                  · rw [if_pos hfc] at h
                    cases hg3 : pyGet item "call_id" Json.null with
                    | error e => rw [hg3, exc_bind_err] at h; exact Except.noConfusion h
                    | ok cid1 =>
                      rw [hg3, exc_bind_ok] at h
                      by_cases ht : cid1.truthy = true
                      · rw [if_pos ht, exc_pure, exc_bind_ok] at h
                        cases hg4 : pyGet item "name" (.str "unknown_tool") with
                        | error e => rw [hg4, exc_bind_err] at h; exact Except.noConfusion h
                        | ok fallbackName =>
                          rw [hg4, exc_bind_ok] at h
                          by_cases hh : cid1.hashable = true
                          · rw [if_pos hh, exc_pure] at h
                            rcases Except.ok.inj h with rfl
                            refine Or.inr ⟨_, _, _, rfl, ?_, Or.inl rfl, Or.inl rfl, fun _ _ => rfl⟩
                            rintro e he
                            rcases Option.some.inj he with rfl
                            exact ⟨rfl, rfl⟩
                          · rw [if_neg hh] at h; exact Except.noConfusion h
                      · rw [if_neg ht] at h
                        cases hg3b : pyGet item "id" (.str "") with
                        | error e => rw [hg3b, exc_bind_err] at h; exact Except.noConfusion h
                        | ok cid2 =>
                          rw [hg3b, exc_bind_ok] at h
                          cases hg4 : pyGet item "name" (.str "unknown_tool") with
                          | error e => rw [hg4, exc_bind_err] at h; exact Except.noConfusion h
                          | ok fallbackName =>
                            rw [hg4, exc_bind_ok] at h
                            by_cases hh : cid2.hashable = true
                            · rw [if_pos hh, exc_pure] at h
                              rcases Except.ok.inj h with rfl
                              refine Or.inr ⟨_, _, _, rfl, ?_, Or.inl rfl, Or.inl rfl, fun _ _ => rfl⟩
                              rintro e he
                              rcases Option.some.inj he with rfl
                              exact ⟨rfl, rfl⟩
                            · rw [if_neg hh] at h; exact Except.noConfusion h
                  · rw [if_neg hfc, exc_pure] at h
                    rcases Except.ok.inj h with rfl
                    exact Or.inr ⟨_, _, _, rfl, fun e he => Option.noConfusion he,
                      Or.inl rfl, Or.inl rfl, fun _ _ => rfl⟩
            · rw [if_neg c5] at h
              by_cases c6 : isET et "oauth_consent_request" = true
              · -- explicit consent branch
                rw [if_pos c6] at h
                cases hg1 : pyGet r.data "consent_link" (.str "") with
                | error e => rw [hg1, exc_bind_err] at h; exact Except.noConfusion h
                | ok consentLink =>
                  rw [hg1, exc_bind_ok] at h
                  cases hg2 : pyGet r.data "connection_name" (.str "") with
                  | error e => rw [hg2, exc_bind_err] at h; exact Except.noConfusion h
                  | ok connectionName =>
                    rw [hg2, exc_bind_ok, exc_pure] at h
                    rcases Except.ok.inj h with rfl
                    obtain ⟨fields, hdata, _⟩ := pyGet_ok_inv hg1
                    refine Or.inl ⟨_, _, rfl, ?_⟩
                    simp only [consentHandled, het]
                    rw [if_pos c6, hdata]
                    rfl
              · rw [if_neg c6] at h
                have c6f : isET et "oauth_consent_request" = false := by
                  cases hb : isET et "oauth_consent_request"
                  · rfl
                  · exact absurd hb c6
                cases hct : pyContains r.data "oauth_consent_request" with
                | error e => rw [hct, exc_bind_err] at h; exact Except.noConfusion h
                | ok embedded =>
                  rw [hct, exc_bind_ok] at h
                  by_cases hemb : embedded = true
                  · -- embedded consent branch
                    rw [if_pos hemb] at h
                    cases hix : pyIndex r.data "oauth_consent_request" with
                    | error e => rw [hix, exc_bind_err] at h; exact Except.noConfusion h
                    | ok consentObj =>
                      rw [hix, exc_bind_ok] at h
                      cases hg1 : pyGet consentObj "consent_link" (.str "") with
                      | error e => rw [hg1, exc_bind_err] at h; exact Except.noConfusion h
                      | ok consentLink =>
                        rw [hg1, exc_bind_ok] at h
                        cases hg2 : pyGet consentObj "connection_name" (.str "") with
                        | error e => rw [hg2, exc_bind_err] at h; exact Except.noConfusion h
                        | ok connectionName =>
                          rw [hg2, exc_bind_ok, exc_pure] at h
                          rcases Except.ok.inj h with rfl
                          obtain ⟨fields, hdata, hlk⟩ := pyIndex_ok_inv hix
                          obtain ⟨cf, hcobj, _⟩ := pyGet_ok_inv hg1
                          refine Or.inl ⟨_, _, rfl, ?_⟩
                          have c2f : (isET et "response.output_text.delta" ||
                              isET et "response.text.delta") = false := by
                            cases hb : (isET et "response.output_text.delta" ||
                                isET et "response.text.delta")
                            · rfl
                            · exact absurd hb c2
                          have hor := Bool.or_eq_false_iff.mp c2f
                          have c3f : isET et "response.content_part.delta" = false := by
                            cases hb : isET et "response.content_part.delta"
                            · rfl
                            · exact absurd hb c3
                          have c4f : isET et "response.output_item.added" = false := by
                            cases hb : isET et "response.output_item.added"
                            · rfl
                            · exact absurd hb c4
                          have c5f : isET et "response.output_item.done" = false := by
                            cases hb : isET et "response.output_item.done"
                            · rfl
                            · exact absurd hb c5
                          have hT : isTranslatorType et = false := by
                            simp [isTranslatorType, c1f, hor.1, hor.2, c3f, c4f, c5f]
                          simp only [consentHandled, het]
                          rw [if_neg c6, if_neg (by rw [hT]; exact Bool.noConfusion)]
                          rw [hcobj] at hlk
                          simp [embeddedKeyObj, hdata, hlk]
                  · -- not a consent record
                    rw [if_neg hemb] at h
                    by_cases c7 : isET et "response.completed" = true
                    · -- response.completed branch
                      rw [if_pos c7] at h
                      cases hg1 : pyGet r.data "response" (.obj []) with
                      | error e => rw [hg1, exc_bind_err] at h; exact Except.noConfusion h
                      | ok respObj =>
                        rw [hg1, exc_bind_ok] at h
                        cases hg2 : pyGet respObj "id" st.responseId with
                        | error e => rw [hg2, exc_bind_err] at h; exact Except.noConfusion h
                        | ok rid =>
                          rw [hg2, exc_bind_ok, exc_pure] at h
                          rcases Except.ok.inj h with rfl
                          obtain ⟨fields, hdata, hv1⟩ := pyGet_ok_inv hg1
                          obtain ⟨rf, hrespObj, hv2⟩ := pyGet_ok_inv hg2
                          have hcmp : isCompletedType r = true := by
                            simp [isCompletedType, het, c7]
                          refine Or.inr ⟨_, _, _, rfl, ?_, Or.inr ⟨hcmp, rfl, rfl⟩, ?_, ?_⟩
                          · exact fun e he => Option.noConfusion he
                          · cases hid : lookupField rf "id" with
                            | none =>
                              rw [hid] at hv2; simp at hv2
                              exact Or.inl hv2.symm
                            | some w =>
                              rw [hid] at hv2; simp at hv2
                              rw [hv2] at hid
                              refine Or.inr (Or.inr ⟨fields, hdata, Or.inl ⟨rf, ?_, hid⟩⟩)
                              cases hresp : lookupField fields "response" with
                              | none =>
                                rw [hresp] at hv1; simp at hv1
                                rw [← hv1] at hrespObj
                                rcases Json.obj.inj hrespObj.symm with rfl
                                rw [lookupField] at hid
                                exact Option.noConfusion hid
                              | some u =>
                                rw [hresp] at hv1; simp at hv1
                                rw [hv1, hrespObj]
                          · intro hc _; rw [hcmp] at hc; exact Bool.noConfusion hc
                    · rw [if_neg c7] at h
                      by_cases c8 : isET et "error" = true
                      · -- error event branch
                        rw [if_pos c8] at h
                        cases hg1 : pyGet r.data "error" r.data with
                        | error e => rw [hg1, exc_bind_err] at h; exact Except.noConfusion h
                        | ok err =>
                          rw [hg1, exc_bind_ok, exc_pure] at h
                          rcases Except.ok.inj h with rfl
                          refine Or.inr ⟨_, _, _, rfl, ?_, Or.inl rfl, Or.inl rfl, fun _ _ => rfl⟩
                          rintro e he
                          rcases Option.some.inj he with rfl
                          exact ⟨rfl, rfl⟩
                      · -- ignored record
                        rw [if_neg c8, exc_pure] at h
                        rcases Except.ok.inj h with rfl
                        exact Or.inr ⟨_, _, _, rfl, fun e he => Option.noConfusion he,
                          Or.inl rfl, Or.inl rfl, fun _ _ => rfl⟩

theorem processRecord_completed (cid : String) (store : Store) (st : LoopState)
    {r : Record} {R : String} (hc : cleanCompleted r R) :
    processRecord cid store st r =
      .ok (.next { st with responseId := .str R }
        (storePut store cid (.obj [("previous_response_id", .str R)])) none) := by
  obtain ⟨fields, rf, hdata, het, hnok, hresp, hid⟩ := hc
  have hany := lookupField_none_any hnok
  unfold processRecord
  rw [het, exc_bind_ok]
  simp only [isET, String.reduceBEq, Bool.or_self, Bool.false_eq_true, if_false]
  rw [hdata]
  simp only [pyContains, exc_bind_ok, hany, Bool.false_eq_true, if_false]
  simp [pyGet, exc_bind_ok, exc_pure, hresp, hid]

theorem runLoop_done_free (cid : String) : ∀ (records : List Record) (store : Store)
    (st : LoopState), ∀ e ∈ (runLoop cid store st records).events, isDoneEv e = false := by
  intro records
  induction records with
  | nil => intro store st e he; simp [runLoop] at he
  | cons r rest ih =>
    intro store st e he
    cases hp : processRecord cid store st r with
    | error msg => simp only [runLoop, hp] at he; simp at he
    | ok out =>
      rcases processRecord_inv cid store st r out hp with
        ⟨store2, ev2, rfl, hcon⟩ | ⟨st2, store2, ev2, rfl, hev, _, _, _⟩
      · have hp2 := processRecord_consent cid store st r hcon
        rcases StepOut.halt.inj (Except.ok.inj (hp2.symm.trans hp)) with ⟨rfl, rfl⟩
        simp only [runLoop, hp2] at he
        simp at he
        subst he
        rfl
      · simp only [runLoop, hp] at he
        simp at he
        rcases he with he | he
        · cases ev2 with
          | none => simp at he
          | some e2 =>
            simp at he
            subst he
            exact (hev _ rfl).1
        · exact ih store2 st2 e he

theorem runLoop_consent_shape (cid : String) : ∀ (records : List Record) (store : Store)
    (st : LoopState),
    ((runLoop cid store st records).result = .halted →
      ∃ pre t, (runLoop cid store st records).events = pre ++ [t] ∧
        isConsentEv t = true ∧ ∀ e ∈ pre, isConsentEv e = false) ∧
    ((runLoop cid store st records).result ≠ .halted →
      ∀ e ∈ (runLoop cid store st records).events, isConsentEv e = false) := by
  intro records
  induction records with
  | nil =>
    intro store st
    constructor
    · intro hres; simp [runLoop] at hres
    · intro _ e he; simp [runLoop] at he
  | cons r rest ih =>
    intro store st
    cases hp : processRecord cid store st r with
    | error msg =>
      constructor
      · intro hres; simp only [runLoop, hp] at hres; exact absurd hres (by simp)
      · intro _ e he; simp only [runLoop, hp] at he; simp at he
    | ok out =>
      rcases processRecord_inv cid store st r out hp with
        ⟨store2, ev2, rfl, hcon⟩ | ⟨st2, store2, ev2, rfl, hev, _, _, _⟩
      · have hp2 := processRecord_consent cid store st r hcon
        rcases StepOut.halt.inj (Except.ok.inj (hp2.symm.trans hp)) with ⟨rfl, rfl⟩
        constructor
        · intro _
          refine ⟨[], StreamEvent.oauthConsentRequired (consentFields r).1 st.responseId
            (consentFields r).2, ?_, rfl, by simp⟩
          simp only [runLoop, hp2]
          rfl
        · intro hres
          exact absurd (by simp only [runLoop, hp2] :
            (runLoop cid store st (r :: rest)).result = .halted) hres
      · constructor
        · intro hres
          simp only [runLoop, hp] at hres ⊢
          obtain ⟨pre, t, hsp, hct, hpre⟩ := (ih store2 st2).1 hres
          refine ⟨ev2.toList ++ pre, t, by rw [hsp, List.append_assoc], hct, ?_⟩
          intro e he
          rcases List.mem_append.mp he with he | he
          · cases ev2 with
            | none => simp at he
            | some e2 =>
              simp at he
              subst he
              exact (hev _ rfl).2
          · exact hpre e he
        · intro hres
          simp only [runLoop, hp] at hres ⊢
          intro e he
          rcases List.mem_append.mp he with he | he
          · cases ev2 with
            | none => simp at he
            | some e2 =>
              simp at he
              subst he
              exact (hev _ rfl).2
          · exact (ih store2 st2).2 hres e he

theorem runLoop_store_frame (cid : String) : ∀ (records : List Record) (store : Store)
    (st : LoopState),
    (∀ r ∈ records, isCompletedType r = false ∧ consentHandled r = false) →
    (runLoop cid store st records).store = store := by
  intro records
  induction records with
  | nil => intro store st _; rfl
  | cons r rest ih =>
    intro store st hall
    obtain ⟨hcm, hch⟩ := hall r (by simp)
    cases hp : processRecord cid store st r with
    | error msg => simp only [runLoop, hp]
    | ok out =>
      rcases processRecord_inv cid store st r out hp with
        ⟨store2, ev2, rfl, hcon⟩ | ⟨st2, store2, ev2, rfl, _, hst, _, _⟩
      · rw [hcon] at hch; exact Bool.noConfusion hch
      · rcases hst with rfl | ⟨hcm2, _, _⟩
        · simp only [runLoop, hp]
          exact ih store2 st2 (fun x hx => hall x (by simp [hx]))
        · rw [hcm2] at hcm; exact Bool.noConfusion hcm

theorem runLoop_storeOk (cid : String) (base : Store) (all : List Record) :
    ∀ (records : List Record) (store : Store) (st : LoopState),
    (∀ x ∈ records, x ∈ all) → ridOk all st.responseId → storeOk base all store →
    storeOk base all (runLoop cid store st records).store := by
  intro records
  induction records with
  | nil => intro store st _ _ hso; exact hso
  | cons r rest ih =>
    intro store st hsub hrid hso
    cases hp : processRecord cid store st r with
    | error msg => simp only [runLoop, hp]; exact hso
    | ok out =>
      rcases processRecord_inv cid store st r out hp with
        ⟨store2, ev2, rfl, hcon⟩ | ⟨st2, store2, ev2, rfl, _, hst, hrid2, _⟩
      · have hp2 := processRecord_consent cid store st r hcon
        rcases StepOut.halt.inj (Except.ok.inj (hp2.symm.trans hp)) with ⟨rfl, rfl⟩
        simp only [runLoop, hp2]
        intro c v hv
        by_cases hc : c = cid
        · subst hc
          rw [storeGet_storePut_self] at hv
          exact Or.inr ⟨st.responseId, (Option.some.inj hv).symm, hrid⟩
        · rw [storeGet_storePut_ne _ _ _ _ hc] at hv
          exact hso c v hv
      · simp only [runLoop, hp]
        have hrid2' : ridOk all st2.responseId := by
          rcases hrid2 with he | he | he
          · rw [he]; exact hrid
          · exact Or.inl he
          · exact Or.inr ⟨r, hsub r (by simp), he⟩
        refine ih store2 st2 (fun x hx => hsub x (by simp [hx])) hrid2' ?_
        rcases hst with rfl | ⟨_, hput, _⟩
        · exact hso
        · rw [hput]
          intro c v hv
          by_cases hc : c = cid
          · subst hc
            rw [storeGet_storePut_self] at hv
            exact Or.inr ⟨st2.responseId, (Option.some.inj hv).symm, hrid2'⟩
          · rw [storeGet_storePut_ne _ _ _ _ hc] at hv
            exact hso c v hv

theorem runLoop_clean_run (cid : String) : ∀ (post : List Record) (store : Store)
    (st : LoopState),
    (∀ r ∈ post, StepsOn cid r ∧ isCompletedType r = false ∧ isCreatedType r = false) →
    ∃ evs, runLoop cid store st post = ⟨store, evs, .finished st.responseId⟩ ∧
      ∀ e ∈ evs, isDoneEv e = false := by
  intro post
  induction post with
  | nil => intro store st _; exact ⟨[], rfl, by simp⟩
  | cons r rest ih =>
    intro store st hall
    obtain ⟨hstep, hcm, hcr⟩ := hall r (by simp)
    obtain ⟨st', store', ev, hp⟩ := hstep store st
    rcases processRecord_inv cid store st r _ hp with
      ⟨_, _, heq, _⟩ | ⟨st2, store2, ev2, heq, hev, hst, _, hfr⟩
    · exact StepOut.noConfusion heq
    · obtain ⟨e1, e2, e3⟩ := StepOut.next.inj heq
      rw [← e2] at hst
      rw [← e1] at hfr
      rw [← e3] at hev
      rcases hst with hs | ⟨hcm2, _, _⟩
      · obtain ⟨evs, hrun, hnd⟩ := ih store st' (fun x hx => hall x (by simp [hx]))
        refine ⟨ev.toList ++ evs, ?_, ?_⟩
        · simp only [runLoop, hp]
          rw [hs, hrun, hfr hcm hcr]
        · intro e he
          rcases List.mem_append.mp he with he | he
          · cases hev' : ev with
            | none => rw [hev'] at he; simp at he
            | some e0 =>
              rw [hev'] at he
              simp at he
              subst he
              exact (hev _ hev').1
          · exact hnd e he
      · rw [hcm2] at hcm; exact Bool.noConfusion hcm

theorem runLoop_pre_append (cid : String) : ∀ (pre : List Record) (store : Store)
    (st : LoopState) (rest : List Record),
    (∀ r ∈ pre, StepsOn cid r ∧ isCompletedType r = false) →
    ∃ st' evs, runLoop cid store st (pre ++ rest) =
      ⟨(runLoop cid store st' rest).store, evs ++ (runLoop cid store st' rest).events,
       (runLoop cid store st' rest).result⟩ ∧
      ∀ e ∈ evs, isDoneEv e = false := by
  intro pre
  induction pre with
  | nil =>
    intro store st rest _
    exact ⟨st, [], by simp, by simp⟩
  | cons r pr ih =>
    intro store st rest hall
    obtain ⟨hstep, hcm⟩ := hall r (by simp)
    obtain ⟨st', store', ev, hp⟩ := hstep store st
    rcases processRecord_inv cid store st r _ hp with
      ⟨_, _, heq, _⟩ | ⟨st2, store2, ev2, heq, hev, hst, _, _⟩
    · exact StepOut.noConfusion heq
    · obtain ⟨e1, e2, e3⟩ := StepOut.next.inj heq
      rw [← e2] at hst
      rw [← e3] at hev
      rcases hst with hs | ⟨hcm2, _, _⟩
      · obtain ⟨stf, evs, hrun, hnd⟩ := ih store st' rest (fun x hx => hall x (by simp [hx]))
        refine ⟨stf, ev.toList ++ evs, ?_, ?_⟩
        · show runLoop cid store st (r :: (pr ++ rest)) = _
          simp only [runLoop, hp]
          rw [hs, hrun]
          simp [List.append_assoc]
        · intro e he
          rcases List.mem_append.mp he with he | he
          · cases hev' : ev with
            | none => rw [hev'] at he; simp at he
            | some e0 =>
              rw [hev'] at he
              simp at he
              subst he
              exact (hev _ hev').1
          · exact hnd e he
      · rw [hcm2] at hcm; exact Bool.noConfusion hcm

theorem streamBody_store_eq (cid : String) (store : Store) (records : List Record) :
    (streamBody cid store records).1 = (runLoop cid store initState records).store := by
  unfold streamBody
  cases h : (runLoop cid store initState records).result <;> simp [h]

theorem streamBody_finished {cid : String} {store : Store} {records : List Record}
    {rid : Json} (h : (runLoop cid store initState records).result = .finished rid) :
    streamBody cid store records =
      ((runLoop cid store initState records).store,
       (runLoop cid store initState records).events ++ [.done (pyOr rid (.str ""))]) := by
  simp only [streamBody, h]

theorem streamBody_halted {cid : String} {store : Store} {records : List Record}
    (h : (runLoop cid store initState records).result = .halted) :
    streamBody cid store records =
      ((runLoop cid store initState records).store,
       (runLoop cid store initState records).events) := by
  simp only [streamBody, h]

theorem streamBody_errored {cid : String} {store : Store} {records : List Record}
    {msg : String} (h : (runLoop cid store initState records).result = .errored msg) :
    streamBody cid store records =
      ((runLoop cid store initState records).store,
       (runLoop cid store initState records).events ++
         [.error (.str ("Unexpected error: " ++ msg))]) := by
  simp only [streamBody, h]

theorem consentEv_facts {t : StreamEvent} (h : isConsentEv t = true) :
    isTerminalEv t = true ∧ isDoneEv t = false := by
  cases t <;> simp [isConsentEv, isTerminalEv, isDoneEv] at h ⊢

theorem dictGet_dictSet_str (d : List (Json × Json)) (X : String) (v : Json) :
    dictGet (dictSet d (.str X) v) (.str X) = some v := by
  induction d with
  | nil => simp [dictSet, dictGet]
  | cons hd tl ih =>
    obtain ⟨k0, v0⟩ := hd
    by_cases hk : dictHas [(k0, v0)] (.str X) = true
    · simp only [dictSet, if_pos hk, dictGet]
      simp
    · rw [dictSet, if_neg hk]
      cases k0 with
      | str a =>
        have ha : (a == X) = false := by
          cases hab : (a == X)
          · rfl
          · exact absurd (by simp [dictHas, dictGet, hab]) hk
        simp [dictGet, ha, ih]
      | null => simp [dictGet, ih]
      | bool b => simp [dictGet, ih]
      | num n => simp [dictGet, ih]
      | arr l => simp [dictGet, ih]
      | obj l => simp [dictGet, ih]

theorem beq_false_of_ne {pe : String} (h : pe ≠ "") : (pe == "") = false := by
  cases hb : (pe == "")
  · rfl
  · exact absurd (by simpa using hb) h

/-- C1 counterexample: a record carrying the oauth_consent_request signal
in the embedded (shape-2) form at position 0, but whose event type is
response.created, is handled by the response.created translator branch
instead of the consent detector: the turn emits no oauth_consent_required
event, does not write the store, and ends with a done event. -/
theorem C1_counterexample :
    embeddedKeyObj (Json.obj [("id", Json.str "r1"),
      ("oauth_consent_request", Json.obj [("consent_link", Json.str "https://x"),
        ("connection_name", Json.str "graph")])]) = true ∧
    streamBody "c" [] [⟨some "response.created", Json.obj [("id", Json.str "r1"),
      ("oauth_consent_request", Json.obj [("consent_link", Json.str "https://x"),
        ("connection_name", Json.str "graph")])]⟩] =
      ([], [StreamEvent.done (Json.str "r1")]) :=
  ⟨rfl, rfl⟩

/-- C1 (amended): when the consent detector fires on a record — the
explicit oauth_consent_request event type with a dict payload, or an
embedded oauth_consent_request dict in a record whose event type matches
none of the earlier translator branches — the turn persists
previous_response_id = the response id known at that point (null when
none was seen), emits exactly one oauth_consent_required event carrying
the extracted consentLink, the responseId known so far (possibly null)
and connectionName, and emits no further event (not even done): the
remaining records are never processed. -/
theorem C1_amended (cid : String) (store : Store) (st : LoopState)
    (r : Record) (rest : List Record) (hd : consentHandled r = true) :
    runLoop cid store st (r :: rest) =
      ⟨storePut store cid (.obj [("previous_response_id", st.responseId)]),
       [.oauthConsentRequired (consentFields r).1 st.responseId (consentFields r).2],
       .halted⟩ ∧
    streamBody cid store (r :: rest) =
      (storePut store cid (.obj [("previous_response_id", Json.null)]),
       [.oauthConsentRequired (consentFields r).1 Json.null (consentFields r).2]) := by
  refine ⟨runLoop_consent_head cid store st r rest hd, ?_⟩
  have hres : (runLoop cid store initState (r :: rest)).result = .halted := by
    rw [runLoop_consent_head cid store initState r rest hd]
  rw [streamBody_halted hres, runLoop_consent_head cid store initState r rest hd]
  rfl

/-- C1 witness: the amended theorem evaluated at the embedded-shape
consent record of the spec, with no preceding response.created. -/
theorem C1_witness :
    consentHandled ⟨none, Json.obj [("oauth_consent_request",
      Json.obj [("consent_link", Json.str "https://x"),
        ("connection_name", Json.str "graph")])]⟩ = true ∧
    streamBody "c" [] [⟨none, Json.obj [("oauth_consent_request",
      Json.obj [("consent_link", Json.str "https://x"),
        ("connection_name", Json.str "graph")])]⟩] =
      ([("c", Json.obj [("previous_response_id", Json.null)])],
       [StreamEvent.oauthConsentRequired (Json.str "https://x") Json.null
         (Json.str "graph")]) :=
  ⟨rfl, (C1_amended "c" [] initState ⟨none, Json.obj [("oauth_consent_request",
      Json.obj [("consent_link", Json.str "https://x"),
        ("connection_name", Json.str "graph")])]⟩ [] rfl).2⟩

/-- C2 counterexample: an upstream error event record does not terminate
the turn; the turn emits the error event and then still ends with done,
so a second terminal event (done) follows the first terminal event (the
error). -/
theorem C2_counterexample :
    isTerminalEv (StreamEvent.error (Json.str "boom")) = true ∧
    isTerminalEv (StreamEvent.done (Json.str "")) = true ∧
    streamBody "c" [] [⟨some "error", Json.obj [("error",
      Json.obj [("message", Json.str "boom")])]⟩] =
      ([], [StreamEvent.error (Json.str "boom"), StreamEvent.done (Json.str "")]) :=
  ⟨rfl, rfl, rfl⟩

/-- C2 (amended): every streamed turn ends with exactly one terminal
event — the last event is a done, an error or an oauth_consent_required,
no event follows it, and no done or oauth_consent_required ever occurs
earlier in the turn; in particular done is never emitted in a turn whose
interrupt detector fired. However an error event translated from an
upstream error record does not terminate the turn, so a done may follow
such an error event. -/
theorem C2_amended (cid : String) (store : Store) (up : UpstreamResult) :
    ∃ evs t, (streamResponse cid store up).2 = evs ++ [t] ∧ isTerminalEv t = true ∧
      (∀ e ∈ evs, isDoneEv e = false ∧ isConsentEv e = false) ∧
      (isConsentEv t = true → ∀ e ∈ evs ++ [t], isDoneEv e = false) := by
  cases up with
  | httpError status bodyText =>
    refine ⟨[], .error (.str ("Foundry API HTTP " ++ toString status ++ ": "
      ++ strTake bodyText 300)), rfl, rfl, by simp, ?_⟩
    intro hc
    exact Bool.noConfusion hc
  | ok records =>
    have hnd := runLoop_done_free cid records store initState
    have hcs := runLoop_consent_shape cid records store initState
    cases hres : (runLoop cid store initState records).result with
    | finished rid =>
      have hnh : (runLoop cid store initState records).result ≠ .halted := by
        rw [hres]; exact fun hcon => LoopResult.noConfusion hcon
      refine ⟨(runLoop cid store initState records).events, .done (pyOr rid (.str "")),
        ?_, rfl, ?_, ?_⟩
      · show (streamBody cid store records).2 = _
        rw [streamBody_finished hres]
      · exact fun e he => ⟨hnd e he, hcs.2 hnh e he⟩
      · intro hc; exact Bool.noConfusion hc
    | halted =>
      obtain ⟨pre, t, hsp, hct, hpre⟩ := hcs.1 hres
      refine ⟨pre, t, ?_, (consentEv_facts hct).1, ?_, ?_⟩
      · show (streamBody cid store records).2 = _
        rw [streamBody_halted hres, hsp]
      · intro e he
        refine ⟨hnd e (by rw [hsp]; exact List.mem_append.mpr (Or.inl he)), hpre e he⟩
      · intro _ e he
        exact hnd e (by rw [hsp]; exact he)
    | errored msg =>
      have hnh : (runLoop cid store initState records).result ≠ .halted := by
        rw [hres]; exact fun hcon => LoopResult.noConfusion hcon
      refine ⟨(runLoop cid store initState records).events,
        .error (.str ("Unexpected error: " ++ msg)), ?_, rfl, ?_, ?_⟩
      · show (streamBody cid store records).2 = _
        rw [streamBody_errored hres]
      · exact fun e he => ⟨hnd e he, hcs.2 hnh e he⟩
      · intro hc; exact Bool.noConfusion hc

/-- C3 counterexample: a stream holding exactly one response.completed
(id r1), no consent signal and no error event, followed by a late
response.created carrying id r2: the store ends with r1 as required, but
the done event carries r2, not the completed event id. -/
theorem C3_counterexample :
    consentHandled ⟨some "response.completed",
      Json.obj [("response", Json.obj [("id", Json.str "r1")])]⟩ = false ∧
    consentHandled ⟨some "response.created",
      Json.obj [("response", Json.obj [("id", Json.str "r2")])]⟩ = false ∧
    isErrorType ⟨some "response.completed",
      Json.obj [("response", Json.obj [("id", Json.str "r1")])]⟩ = false ∧
    isErrorType ⟨some "response.created",
      Json.obj [("response", Json.obj [("id", Json.str "r2")])]⟩ = false ∧
    isCompletedType ⟨some "response.created",
      Json.obj [("response", Json.obj [("id", Json.str "r2")])]⟩ = false ∧
    streamBody "c" [] [⟨some "response.completed",
      Json.obj [("response", Json.obj [("id", Json.str "r1")])]⟩,
      ⟨some "response.created", Json.obj [("response", Json.obj [("id", Json.str "r2")])]⟩] =
      ([("c", Json.obj [("previous_response_id", Json.str "r1")])],
       [StreamEvent.done (Json.str "r2")]) :=
  ⟨rfl, rfl, rfl, rfl, rfl, rfl⟩

/-- C3 (amended): for a stream of exception-free records holding exactly
one response.completed record, which carries a non-empty response id R
and no embedded consent key, with no consent detection, no error events,
and no response.created or response.completed after the completed
record, the store ends the turn with previous_response_id = R and the
client stream ends with exactly one done event carrying R. -/
theorem C3_amended (cid : String) (store : Store) (pre post : List Record)
    (c : Record) (R : String) (hR : R ≠ "") (hc : cleanCompleted c R)
    (hpre : ∀ r ∈ pre, StepsOn cid r ∧ isCompletedType r = false)
    (hpost : ∀ r ∈ post, StepsOn cid r ∧ isCompletedType r = false ∧ isCreatedType r = false)
    (_hNoErr : ∀ r ∈ pre ++ c :: post, isErrorType r = false) :
    ∃ evs, streamBody cid store (pre ++ c :: post) =
      (storePut store cid (.obj [("previous_response_id", .str R)]),
       evs ++ [.done (.str R)]) ∧
      ∀ e ∈ evs, isDoneEv e = false := by
  obtain ⟨st', evs1, hrun1, hnd1⟩ := runLoop_pre_append cid pre store initState (c :: post) hpre
  obtain ⟨evs2, hrun2, hnd2⟩ := runLoop_clean_run cid post
    (storePut store cid (.obj [("previous_response_id", .str R)]))
    { st' with responseId := .str R } hpost
  have hmid : runLoop cid store st' (c :: post) =
      ⟨storePut store cid (.obj [("previous_response_id", .str R)]), evs2,
       .finished (Json.str R)⟩ := by
    simp only [runLoop, processRecord_completed cid store st' hc, hrun2]
    rfl
  have hpor : pyOr (Json.str R) (Json.str "") = Json.str R := by
    simp [pyOr, Json.truthy, hR]
  refine ⟨evs1 ++ evs2, ?_, ?_⟩
  · have hres : (runLoop cid store initState (pre ++ c :: post)).result =
        .finished (Json.str R) := by
      rw [hrun1, hmid]
    rw [streamBody_finished hres, hrun1, hmid]
    simp [hpor, List.append_assoc]
  · intro e he
    rcases List.mem_append.mp he with he | he
    · exact hnd1 e he
    · exact hnd2 e he

/-- C3 witness: the amended theorem evaluated at the singleton stream
holding one clean response.completed record with id r1. -/
theorem C3_witness :
    ∃ evs, streamBody "c" [] [⟨some "response.completed",
      Json.obj [("response", Json.obj [("id", Json.str "r1")])]⟩] =
      ([("c", Json.obj [("previous_response_id", Json.str "r1")])],
       evs ++ [StreamEvent.done (Json.str "r1")]) ∧
      ∀ e ∈ evs, isDoneEv e = false :=
  C3_amended "c" [] [] []
    ⟨some "response.completed", Json.obj [("response", Json.obj [("id", Json.str "r1")])]⟩
    "r1" (by decide)
    ⟨[("response", Json.obj [("id", Json.str "r1")])], [("id", Json.str "r1")],
      rfl, rfl, rfl, rfl, rfl⟩
    (by intro r hr; simp at hr)
    (by intro r hr; simp at hr)
    (by intro r hr; simp at hr; subst hr; rfl)

/-- C4: a resume request for a conversation with no stored continuation
state, or whose stored state has no truthy continuation token, fails
with a 4xx client error and opens no stream (no upstream call is made
and no StreamEvent is produced). -/
theorem C4_resume_fails (pe ag cid : String) (store : Store) (hpe : pe ≠ "") (hag : ag ≠ "")
    (h : storeGet store cid = none ∨
      ∃ fields, storeGet store cid = some (.obj fields) ∧
        ((lookupField fields "previous_response_id").getD Json.null).truthy = false) :
    ∃ status detail, continueAfterConsent pe ag store ⟨cid⟩ =
      .ok (.httpError status detail) ∧ 400 ≤ status ∧ status < 500 := by
  have hpz := beq_false_of_ne hpe
  have haz := beq_false_of_ne hag
  rcases h with h | ⟨fields, h, hf⟩
  · have heq : continueAfterConsent pe ag store ⟨cid⟩ =
        .ok (.httpError 404 ("No conversation found for conversationId=" ++ cid)) := by
      simp [continueAfterConsent, hpz, haz, h, exc_pure]
    exact ⟨404, _, heq, by norm_num, by norm_num⟩
  · cases fields with
    | nil =>
      have heq : continueAfterConsent pe ag store ⟨cid⟩ =
          .ok (.httpError 404 ("No conversation found for conversationId=" ++ cid)) := by
        simp [continueAfterConsent, hpz, haz, h, Json.truthy, exc_pure]
      exact ⟨404, _, heq, by norm_num, by norm_num⟩
    | cons f0 ftl =>
      have hst : (Json.obj (f0 :: ftl)).truthy = true := rfl
      have heq : continueAfterConsent pe ag store ⟨cid⟩ =
          .ok (.httpError 400 "No previous_response_id stored; cannot continue.") := by
        simp [continueAfterConsent, hpz, haz, h, hst, pyGet, exc_bind_ok, exc_pure, hf]
      exact ⟨400, _, heq, by norm_num, by norm_num⟩

/-- C4 witness: resume for a never-seen conversation id on an empty
store fails with a client error. -/
theorem C4_witness :
    ∃ status detail, continueAfterConsent "e" "a" [] ⟨"c"⟩ =
      .ok (.httpError status detail) ∧ 400 ≤ status ∧ status < 500 :=
  C4_resume_fails "e" "a" "c" [] (by decide) (by decide) (Or.inl rfl)

/-- C5: a non-2xx upstream status yields exactly one error StreamEvent
whose message carries the status and the body truncated to 300
characters; no done event, no decode-loop processing, and the store is
unchanged for every key. -/
theorem C5_http_error (cid : String) (store : Store) (status : Nat) (bodyText : String) :
    streamResponse cid store (.httpError status bodyText) =
      (store, [.error (.str ("Foundry API HTTP " ++ toString status ++ ": "
        ++ strTake bodyText 300))]) ∧
    (strTake bodyText 300).length ≤ 300 := by
  refine ⟨rfl, ?_⟩
  show (bodyText.data.take 300).length ≤ 300
  rw [List.length_take]
  exact min_le_left _ _

/-- C6 counterexample: continuation state exists for the conversation
(the store holds an entry whose previous_response_id is null, as written
by a consent interrupt before any response id was known), yet the built
request body contains no previous_response_id. -/
theorem C6_counterexample :
    (storeGet [("c", Json.obj [("previous_response_id", Json.null)])] "c").isSome = true ∧
    chat "e" "a" [("c", Json.obj [("previous_response_id", Json.null)])] ⟨"c", "hi"⟩ =
      .ok (.streamOpened (some "hi") Json.null "c") ∧
    lookupField (buildBody "a" (some "hi") Json.null) "previous_response_id" = none :=
  ⟨rfl, rfl, rfl⟩

/-- C6 (amended): the upstream request body always contains model = the
agent identifier and stream = true; it contains previous_response_id iff
the previous_response_id value supplied for the turn is truthy (so a
stored null or empty token yields no previous_response_id even though
continuation state exists); it contains input — one record with role
user and the message as content — iff a non-empty user message was
supplied; and a resume call never supplies a user message. -/
theorem C6_amended (ag : String) (um : Option String) (prid : Json)
    (pe : String) (store : Store) (rc : ContinueRequest) :
    lookupField (buildBody ag um prid) "model" = some (.str ag) ∧
    lookupField (buildBody ag um prid) "stream" = some (.bool true) ∧
    lookupField (buildBody ag um prid) "previous_response_id" =
      (if prid.truthy = true then some prid else none) ∧
    lookupField (buildBody ag um prid) "input" =
      (match um with
       | some m => if m ≠ "" then
           some (.arr [.obj [("role", .str "user"), ("content", .str m)]]) else none
       | none => none) ∧
    (∀ um2 prid2 cid2, continueAfterConsent pe ag store rc =
      .ok (.streamOpened um2 prid2 cid2) → um2 = none) := by
  refine ⟨?_, ?_, ?_, ?_, ?_⟩
  · unfold buildBody
    by_cases hp : prid.truthy = true <;>
      rcases um with _ | m <;>
      simp [hp, lookupField] <;>
      by_cases hm : m = "" <;>
      simp [hm, lookupField]
  · unfold buildBody
    by_cases hp : prid.truthy = true <;>
      rcases um with _ | m <;>
      simp [hp, lookupField] <;>
      by_cases hm : m = "" <;>
      simp [hm, lookupField]
  · unfold buildBody
    by_cases hp : prid.truthy = true <;>
      rcases um with _ | m <;>
      simp [hp, lookupField] <;>
      by_cases hm : m = "" <;>
      simp [hm, lookupField]
  · unfold buildBody
    by_cases hp : prid.truthy = true <;>
      rcases um with _ | m <;>
      simp [hp, lookupField] <;>
      by_cases hm : m = "" <;>
      simp [hm, lookupField]
  · intro um2 prid2 cid2 h
    unfold continueAfterConsent at h
    by_cases hz : (pe == "" || ag == "") = true
    · rw [if_pos hz] at h
      exact TurnStart.noConfusion (Except.ok.inj h)
    · rw [if_neg hz] at h
      cases hs : storeGet store rc.conversationId with
      | none =>
        simp only [hs] at h
        exact TurnStart.noConfusion (Except.ok.inj h)
      | some state =>
        simp only [hs] at h
        cases hts : state.truthy with
        | false =>
          rw [hts] at h
          rw [if_pos (by rfl : (!false) = true)] at h
          exact TurnStart.noConfusion (Except.ok.inj h)
        | true =>
          rw [hts] at h
          rw [if_neg (by simp : ¬((!true) = true))] at h
          cases hg : pyGet state "previous_response_id" Json.null with
          | error e => rw [hg, exc_bind_err] at h; exact Except.noConfusion h
          | ok prid3 =>
            rw [hg, exc_bind_ok] at h
            cases hpt : prid3.truthy with
            | false =>
              rw [hpt] at h
              rw [if_pos (by rfl : (!false) = true)] at h
              exact TurnStart.noConfusion (Except.ok.inj h)
            | true =>
              rw [hpt] at h
              rw [if_neg (by simp : ¬((!true) = true))] at h
              exact ((TurnStart.streamOpened.inj (Except.ok.inj h)).1).symm

/-- C7 counterexample: a single tool.start for call id x1 is followed by
two tool.end events with the same call id — one per
response.output_item.done record — so at most one tool.end per start
does not hold. -/
theorem C7_counterexample :
    streamBody "c" [] [addedRec "x1" "t", doneItemRec "x1" "t", doneItemRec "x1" "t"] =
      ([], [StreamEvent.toolStart (Json.str "t") (Json.str "x1"),
        StreamEvent.toolEnd (Json.str "t") (Json.str "x1"),
        StreamEvent.toolEnd (Json.str "t") (Json.str "x1"),
        StreamEvent.done (Json.str "")]) := rfl

/-- C7 (amended): a response.output_item.added function_call record with
call id X and name tn emits tool.start and records X to tn in the
turn-scoped map; every response.output_item.done function_call record
with call id X emits one tool.end whose toolName is the name recorded in
the map at start time, falling back to the done item's own name field
when X was never recorded; and a recorded start is indeed resolved by a
later done with the same call id. Nothing, however, bounds the number of
tool.end events per call id: each done record emits one. -/
theorem C7_amended (cid : String) (store : Store) (st : LoopState)
    (X tn nm : String) (hX : X ≠ "") :
    processRecord cid store st (addedRec X tn) =
      .ok (.next { st with activeToolCalls := dictSet st.activeToolCalls (.str X) (.str tn) }
        store (some (.toolStart (.str tn) (.str X)))) ∧
    processRecord cid store st (doneItemRec X nm) =
      .ok (.next st store (some (.toolEnd
        ((dictGet st.activeToolCalls (.str X)).getD (.str nm)) (.str X)))) ∧
    dictGet (dictSet st.activeToolCalls (.str X) (.str tn)) (.str X) = some (.str tn) := by
  have hxt : Json.truthy (.str X) = true := by simp [Json.truthy, hX]
  refine ⟨?_, ?_, dictGet_dictSet_str _ _ _⟩
  · unfold processRecord addedRec
    simp only [eventTypeOf, isET, String.reduceBEq, exc_bind_ok, Bool.or_self,
      Bool.false_eq_true, if_false, if_true, pyGet, lookupField, String.reduceEq,
      ite_true, ite_false, Option.getD_some, hxt, Json.hashable, exc_pure]
  · unfold processRecord doneItemRec
    simp only [eventTypeOf, isET, String.reduceBEq, exc_bind_ok, Bool.or_self,
      Bool.false_eq_true, if_false, if_true, pyGet, lookupField, String.reduceEq,
      ite_true, ite_false, Option.getD_some, hxt, Json.hashable, exc_pure]

/-- C7 witness: the amended theorem evaluated at call id x1, start name
t, done-item name n, from the initial turn state. -/
theorem C7_witness :
    processRecord "c" [] initState (addedRec "x1" "t") =
      .ok (.next ⟨Json.null, [(Json.str "x1", Json.str "t")]⟩ []
        (some (.toolStart (Json.str "t") (Json.str "x1")))) ∧
    processRecord "c" [] initState (doneItemRec "x1" "n") =
      .ok (.next initState [] (some (.toolEnd (Json.str "n") (Json.str "x1")))) ∧
    dictGet (dictSet initState.activeToolCalls (Json.str "x1") (Json.str "t"))
      (Json.str "x1") = some (Json.str "t") :=
  C7_amended "c" [] initState "x1" "t" "n" (by decide)

/-- C8: every binding of the conversation store after a streamed turn is
either inherited unchanged from the store before the turn, or is a
previous_response_id dict whose value is null or was extracted from one
of the decoded records of the turn (from response.id or a top-level id);
no guessed or fabricated response id is ever written. -/
theorem C8_invariant (cid : String) (store : Store) (records : List Record)
    (c : String) (v : Json)
    (h : storeGet (streamBody cid store records).1 c = some v) :
    storeGet store c = some v ∨
    ∃ rid, v = .obj [("previous_response_id", rid)] ∧
      (rid = Json.null ∨ ∃ r ∈ records, ridFromRecord rid r) := by
  rw [streamBody_store_eq] at h
  have hso := runLoop_storeOk cid store records records store initState
    (fun x hx => hx) (Or.inl rfl) (fun c v hv => Or.inl hv) c v h
  exact hso

/-- C8 witness: the invariant evaluated on a turn holding one
response.completed record with id r1, starting from the empty store. -/
theorem C8_witness :
    storeGet ([] : Store) "c" = some (Json.obj [("previous_response_id", Json.str "r1")]) ∨
    ∃ rid, Json.obj [("previous_response_id", Json.str "r1")] =
        Json.obj [("previous_response_id", rid)] ∧
      (rid = Json.null ∨ ∃ r ∈ [(⟨some "response.completed",
        Json.obj [("response", Json.obj [("id", Json.str "r1")])]⟩ : Record)],
        ridFromRecord rid r) :=
  C8_invariant "c" [] [⟨some "response.completed",
    Json.obj [("response", Json.obj [("id", Json.str "r1")])]⟩] "c"
    (Json.obj [("previous_response_id", Json.str "r1")]) rfl

/-- C9: when the consent detector fires while the turn's response id is
still null (no response.created has supplied an id), the store entry for
the conversation is overwritten with a null previous_response_id — even
when an earlier turn had stored a valid token — and a subsequent resume
fails with the 400 no-continuation-token client error. -/
theorem C9_null_overwrite (pe ag cid : String) (store : Store) (st : LoopState) (r : Record)
    (rest : List Record) (hpe : pe ≠ "") (hag : ag ≠ "")
    (hrid : st.responseId = Json.null) (hd : consentHandled r = true) :
    storeGet (runLoop cid store st (r :: rest)).store cid =
      some (Json.obj [("previous_response_id", Json.null)]) ∧
    continueAfterConsent pe ag (runLoop cid store st (r :: rest)).store ⟨cid⟩ =
      .ok (.httpError 400 "No previous_response_id stored; cannot continue.") := by
  have hrun : (runLoop cid store st (r :: rest)).store =
      storePut store cid (.obj [("previous_response_id", Json.null)]) := by
    rw [runLoop_consent_head cid store st r rest hd, hrid]
  have hget : storeGet (runLoop cid store st (r :: rest)).store cid =
      some (Json.obj [("previous_response_id", Json.null)]) := by
    rw [hrun]; exact storeGet_storePut_self _ _ _
  refine ⟨hget, ?_⟩
  have hpz := beq_false_of_ne hpe
  have haz := beq_false_of_ne hag
  unfold continueAfterConsent
  simp only [hpz, haz, Bool.or_self, Bool.false_eq_true, if_false, hget]
  rfl

/-- C9 witness: the theorem evaluated on a store that already held a
valid token for the conversation, with an embedded-shape consent record
arriving before any response.created. -/
theorem C9_witness :
    storeGet (runLoop "c" [("c", Json.obj [("previous_response_id", Json.str "old")])]
      initState [⟨none, Json.obj [("oauth_consent_request",
        Json.obj [("consent_link", Json.str "https://x"),
          ("connection_name", Json.str "graph")])]⟩]).store "c" =
      some (Json.obj [("previous_response_id", Json.null)]) ∧
    continueAfterConsent "e" "a"
      (runLoop "c" [("c", Json.obj [("previous_response_id", Json.str "old")])]
        initState [⟨none, Json.obj [("oauth_consent_request",
          Json.obj [("consent_link", Json.str "https://x"),
            ("connection_name", Json.str "graph")])]⟩]).store ⟨"c"⟩ =
      .ok (.httpError 400 "No previous_response_id stored; cannot continue.") :=
  C9_null_overwrite "e" "a" "c" _ initState _ [] (by decide) (by decide) rfl rfl

/-- C10: a turn in which no record is dispatched as response.completed
and the consent detector never fires — including turns that end in an
upstream error event, turns of only text deltas and tool events, turns
cut short by the DONE sentinel, and turns aborted by an exception —
leaves the conversation store exactly as it was, for every key. -/
theorem C10_frame (cid : String) (store : Store) (records : List Record)
    (h : ∀ r ∈ records, isCompletedType r = false ∧ consentHandled r = false) :
    (streamBody cid store records).1 = store := by
  rw [streamBody_store_eq]
  exact runLoop_store_frame cid records store initState h

/-- C10 witness: a turn holding an error event record and a text delta
leaves a pre-populated store untouched. -/
theorem C10_witness :
    (streamBody "c" [("c", Json.obj [("previous_response_id", Json.str "old")])]
      [⟨some "error", Json.obj [("error", Json.obj [("message", Json.str "boom")])]⟩,
       ⟨some "response.output_text.delta", Json.obj [("delta", Json.str "Hi")]⟩]).1 =
      [("c", Json.obj [("previous_response_id", Json.str "old")])] :=
  C10_frame "c" _ _ (by
    intro r hr
    rcases List.mem_cons.mp hr with rfl | hr
    · exact ⟨rfl, rfl⟩
    rcases List.mem_cons.mp hr with rfl | hr
    · exact ⟨rfl, rfl⟩
    simp at hr)

end FoundryOauth
